import Mathlib

/-!
Shallow embedding of the simulation core of the `asteroids-clone` repository
(`src/lib/gameLogic.ts`, `src/lib/constants.ts`, the collision pass of
`src/components/GameCanvas.svelte`, and the transient-text factory).

JavaScript `number` values are embedded as real numbers (`ℝ`); `Math.random()`
is embedded as an explicit stream of values in `[0, 1)` that every
randomness-consuming function threads through and returns.  `Math.round` is
Mathlib's `round` (both are `⌊x + 1/2⌋`), `Math.floor` on the non-negative
quantities used here is `Nat.floor`, and `Math.atan2` is embedded by `atan2`
below with the same case analysis as the IEEE definition on non-zero reals.
-/

namespace Asteroids

noncomputable section

open Classical

/-! ### Constants (`src/lib/constants.ts`) -/

def width : ℝ := 800
def height : ℝ := 600
def PI2 : ℝ := Real.pi * 2
def sparkLifetime : ℕ := 50
def massWeightExponent : ℝ := 1.5
def outerMargin : ℝ := 50
def bulletSpeed : ℝ := 7

-- Scoring constants.
def SNIPE_TIME_THRESHOLD : ℝ := 1000
def MIN_SNIPE_DISTANCE : ℝ := 0.25

-- Fragmentation constants (`gameLogic.ts`).
def smallestFragmentRadius : ℝ := 12
def smallestFragmentArea : ℝ := Real.pi * smallestFragmentRadius * smallestFragmentRadius

/-! ### Randomness

`Math.random()` returns a value in `[0, 1)`.  A `Rand` is the stream of
values the generator will produce; `rnd` reads the next value and `rtail`
is the stream after consuming it. -/

def UnitI : Type := { u : ℝ // 0 ≤ u ∧ u < 1 }

def Rand : Type := ℕ → UnitI

def rnd (r : Rand) : ℝ := (r 0).1

def rtail (r : Rand) : Rand := fun n => r (n + 1)

theorem rnd_nonneg (r : Rand) : 0 ≤ rnd r := (r 0).2.1

theorem rnd_lt_one (r : Rand) : rnd r < 1 := (r 0).2.2

theorem rnd_le_one (r : Rand) : rnd r ≤ 1 := le_of_lt (rnd_lt_one r)

/-! ### `Math.atan2` -/

def atan2 (y x : ℝ) : ℝ :=
  if 0 < x then Real.arctan (y / x)
  else if x < 0 then
    (if 0 ≤ y then Real.arctan (y / x) + Real.pi else Real.arctan (y / x) - Real.pi)
  else
    (if 0 < y then Real.pi / 2 else if y < 0 then -(Real.pi / 2) else 0)

/-! ### Entity types (`gameLogic.ts` interfaces)

The second (area-based) version of `gameLogic.ts` is the one embedded; its
`Asteroid` interface has no `type` field (the `type: 'small'` remnant pushed
by `fragmentAsteroid` is dead cosmetic data not present in the interface and
read by nothing, so it is omitted). -/

structure Asteroid where
  x : ℝ
  y : ℝ
  angle : ℝ
  speed : ℝ
  radius : ℝ
  targetRadius : ℝ
  area : ℝ
  vertexCount : ℕ
  offsets : List ℝ
  offsetAngle : ℝ

structure Bullet where
  x : ℝ
  y : ℝ
  vx : ℝ
  vy : ℝ
  distanceTraveled : ℝ
  maxDistance : ℝ
  shotTime : ℝ
  deltaShotTime : ℝ

structure Spark where
  x : ℝ
  y : ℝ
  vx : ℝ
  vy : ℝ
  age : ℕ

structure ScoreResult where
  value : ℤ
  label : Option String

/-! ### Motion updaters -/

/-- One asteroid's per-tick update (`updateAsteroids` body): integrate the
polar velocity, then apply the four sequential wrap checks with the outer
margin.  The source mutates each element of the array in place; here the
updated asteroid is returned. -/
def updateAsteroid (a : Asteroid) : Asteroid :=
  let x1 := a.x + a.speed * Real.cos a.angle
  let y1 := a.y + a.speed * Real.sin a.angle
  let x2 := if x1 < -outerMargin then width + outerMargin else x1
  let x3 := if x2 > width + outerMargin then -outerMargin else x2
  let y2 := if y1 < -outerMargin then height + outerMargin else y1
  let y3 := if y2 > height + outerMargin then -outerMargin else y2
  { a with x := x3, y := y3 }

def updateAsteroids (asteroids : List Asteroid) : List Asteroid :=
  asteroids.map updateAsteroid

/-- One bullet's per-tick update (`updateBullets` loop body): add the step
magnitude to `distanceTraveled`, move, and edge-wrap at the field boundary. -/
def updateBullet (b : Bullet) : Bullet :=
  let stepDistance := Real.sqrt (b.vx * b.vx + b.vy * b.vy)
  let x1 := b.x + b.vx
  let y1 := b.y + b.vy
  let x2 := if x1 < 0 then x1 + width else x1
  let x3 := if x2 > width then x2 - width else x2
  let y2 := if y1 < 0 then y1 + height else y1
  let y3 := if y2 > height then y2 - height else y2
  { b with distanceTraveled := b.distanceTraveled + stepDistance, x := x3, y := y3 }

/-- The function `updateBullets`: update every bullet, then keep only those with
`distanceTraveled <= maxDistance`. -/
def updateBullets (bullets : List Bullet) : List Bullet :=
  (bullets.map updateBullet).filter fun b => decide (b.distanceTraveled ≤ b.maxDistance)

/-! ### Spawning (`spawnAsteroid`, `spawnExplosion`) -/

/-- Sequence of per-vertex cosmetic offsets: `vertexCount` draws of
`0.8 + Math.random() * 0.4`, pushed in order. -/
def drawOffsets : Rand → ℕ → List ℝ × Rand
  | r, 0 => ([], r)
  | r, n + 1 =>
      let v := 0.8 + rnd r * 0.4
      let rest := drawOffsets (rtail r) n
      (v :: rest.1, rest.2)

/-- The `switch (edge)` block of `spawnAsteroid`: one draw picks the edge,
one further draw fixes the free coordinate (`getRandomOffset(dim)` is the
deterministic `dim * 0.25`).  Edges beyond 3 cannot occur because the edge
draw lies in `[0, 1)`; the catch-all arm repeats case 3. -/
def spawnPos (r : Rand) : (ℝ × ℝ) × Rand :=
  let edge := ⌊rnd r * 4⌋₊
  let r1 := rtail r
  match edge with
  | 0 => ((-(width * 0.25), rnd r1 * height), rtail r1)
  | 1 => ((width + width * 0.25, rnd r1 * height), rtail r1)
  | 2 => ((rnd r1 * width, -(height * 0.25)), rtail r1)
  | _ => ((rnd r1 * width, height + height * 0.25), rtail r1)

/-- The factory `spawnAsteroid` (area-based version): off-screen spawn point, angle aimed
at a random in-field target perturbed by ±15°, radius uniform in `[12, 70)`,
`area = π·r·r`, cosmetic vertex data, speed in `[1, 3)`. -/
def spawnAsteroid (r : Rand) : Asteroid × Rand :=
  let p := spawnPos r
  let x := p.1.1
  let y := p.1.2
  let r1 := p.2
  let targetX := rnd r1 * width
  let r2 := rtail r1
  let targetY := rnd r2 * height
  let r3 := rtail r2
  let angle := atan2 (targetY - y) (targetX - x) + (rnd r3 - 0.5) * (Real.pi / 6)
  let r4 := rtail r3
  let rad := rnd r4 * (70 - smallestFragmentRadius) + smallestFragmentRadius
  let r5 := rtail r4
  let area := Real.pi * rad * rad
  let vertexCount := ⌊8 + rnd r5 * 5⌋₊
  let r6 := rtail r5
  let od := drawOffsets r6 vertexCount
  let r7 := od.2
  let speed := 1 + rnd r7 * 2
  let r8 := rtail r7
  let offsetAngle := rnd r8 * PI2
  let r9 := rtail r8
  ({ x := x, y := y, angle := angle, speed := speed, radius := rad,
     targetRadius := rad, area := area, vertexCount := vertexCount,
     offsets := od.1, offsetAngle := offsetAngle }, r9)

/-- The spark-emitting loop of `spawnExplosion`: each spark consumes a spread
draw and a speed draw and is pushed onto the sink. -/
def sparkDraws : ℕ → Rand → ℝ → ℝ → ℝ → List Spark → List Spark × Rand
  | 0, r, _, _, _, acc => (acc, r)
  | n + 1, r, x, y, baseAngle, acc =>
      let sparkAngle := baseAngle + (rnd r - 0.5) * (Real.pi / 3)
      let r1 := rtail r
      let speed := 1 + rnd r1 * 2
      let r2 := rtail r1
      sparkDraws n r2 x y baseAngle
        (acc ++ [{ x := x, y := y, vx := speed * Real.cos sparkAngle,
                   vy := speed * Real.sin sparkAngle, age := 0 }])

/-- The factory `spawnExplosion` blends bullet and asteroid velocities by the
mass-weighted formula (`weight = normalizedMass ^ 1.5`, a real power) and
emits 10 sparks around the blended base angle. -/
def spawnExplosion (x y : ℝ) (bullet : Bullet) (asteroid : Asteroid)
    (sparks : List Spark) (r : Rand) : List Spark × Rand :=
  let asteroidVx := asteroid.speed * Real.cos asteroid.angle
  let asteroidVy := asteroid.speed * Real.sin asteroid.angle
  let normalizedMass :=
    (asteroid.targetRadius - smallestFragmentRadius) / (70 - smallestFragmentRadius)
  let weight := normalizedMass ^ massWeightExponent
  let explosionVx := (1 - weight) * bullet.vx + weight * asteroidVx
  let explosionVy := (1 - weight) * bullet.vy + weight * asteroidVy
  let explosionBaseAngle := atan2 explosionVy explosionVx
  sparkDraws 10 r x y explosionBaseAngle sparks

/-! ### Fragmentation (`fragmentAsteroid`) -/

/-- Helper `randomPointInCircle(R)`: area-uniform point in a disc of radius `R`. -/
def randomPointInCircle (r : Rand) (R : ℝ) : (ℝ × ℝ) × Rand :=
  let rr := Real.sqrt (rnd r) * R
  let r1 := rtail r
  let theta := rnd r1 * PI2
  ((rr * Real.cos theta, rr * Real.sin theta), rtail r1)

/-- The candidate fragment area drawn at the top of each loop iteration:
uniform between `smallestFragmentArea` and
`max(smallestFragmentArea, availableArea * 0.5)`. -/
def fragAreaDraw (r : Rand) (availableArea : ℝ) : ℝ :=
  rnd r * (max smallestFragmentArea (availableArea * 0.5) - smallestFragmentArea) +
    smallestFragmentArea

theorem smallestFragmentArea_pos : 0 < smallestFragmentArea := by
  have h := Real.pi_pos
  unfold smallestFragmentArea smallestFragmentRadius
  nlinarith

theorem fragAreaDraw_ge (r : Rand) (a : ℝ) :
    smallestFragmentArea ≤ fragAreaDraw r a := by
  unfold fragAreaDraw
  have h1 : 0 ≤ rnd r := rnd_nonneg r
  have h2 : smallestFragmentArea ≤ max smallestFragmentArea (a * 0.5) := le_max_left _ _
  nlinarith

theorem ceil_div_decrease {a f s : ℝ} (hs : 0 < s) (hf : s ≤ f) (ha : s ≤ a) :
    ⌈(a - f) / s⌉₊ < ⌈a / s⌉₊ := by
  have h1 : (1 : ℝ) ≤ a / s := (one_le_div hs).mpr ha
  have hceil1 : 1 ≤ ⌈a / s⌉₊ := Nat.ceil_pos.mpr (by linarith)
  have hkey : (a - f) / s ≤ (⌈a / s⌉₊ : ℝ) - 1 := by
    have h2 : (a - f) / s ≤ a / s - 1 := by
      rw [div_le_iff₀ hs, sub_mul, one_mul, div_mul_cancel₀ _ (ne_of_gt hs)]
      linarith
    have h3 : a / s ≤ (⌈a / s⌉₊ : ℝ) := Nat.le_ceil _
    linarith
  have : ⌈(a - f) / s⌉₊ ≤ ⌈a / s⌉₊ - 1 := by
    rw [Nat.ceil_le]
    rw [show ((⌈a / s⌉₊ - 1 : ℕ) : ℝ) = (⌈a / s⌉₊ : ℝ) - 1 by
      push_cast [Nat.cast_sub hceil1]; ring]
    exact hkey
  omega

/-- The body of one iteration of the fragment-carving loop (everything the
source computes between drawing `fragArea` and pushing the fragment): the
fragment's radius, its placement inside the parent's disc, the weighted
velocity blend (`w1 = 2` for the placement unit vector, `w2 = 1` for the
parent velocity, `w3 = 0.2` for the bullet velocity, globally scaled by
`explosionForceScale = 0.5`), the random speed boost and the cosmetic vertex
data.  Returns the fragment and the stream left after this iteration's
draws. -/
def fragBody (px py pradius pvx pvy bvx bvy : ℝ) (r : Rand) (availableArea : ℝ) :
    Asteroid × Rand :=
  let fragArea := fragAreaDraw r availableArea
  let r1 := rtail r
  let fragRadius := Real.sqrt (fragArea / Real.pi)
  let maxPosRadius := max 0 (pradius - fragRadius)
  let pp := randomPointInCircle r1 maxPosRadius
  let posX := pp.1.1
  let posY := pp.1.2
  let r3 := pp.2
  let dist := Real.sqrt (posX * posX + posY * posY)
  let pux := if dist > 0 then posX / dist else 1
  let puy := if dist > 0 then posY / dist else 0
  let combinedVx := 2 * pux + 1 * pvx + 0.2 * bvx
  let combinedVy := 2 * puy + 1 * pvy + 0.2 * bvy
  let scaledVx := 0.5 * combinedVx
  let scaledVy := 0.5 * combinedVy
  let fragAngle := atan2 scaledVy scaledVx
  let fragSpeed := Real.sqrt (scaledVx * scaledVx + scaledVy * scaledVy) * (1 + rnd r3 * 0.5)
  let r4 := rtail r3
  let vertexCount := ⌊8 + rnd r4 * 5⌋₊
  let r5 := rtail r4
  let od := drawOffsets r5 vertexCount
  let r6 := od.2
  let offsetAngle := rnd r6 * PI2
  let r7 := rtail r6
  ({ x := px + posX, y := py + posY, angle := fragAngle, speed := fragSpeed,
     radius := fragRadius, targetRadius := fragRadius, area := fragArea,
     vertexCount := vertexCount, offsets := od.1, offsetAngle := offsetAngle }, r7)

/-- The fragment-carving `while` loop of `fragmentAsteroid`, recursing on the
remaining `availableArea`: loop while `availableArea >= smallestFragmentArea`,
draw a candidate area, break when it exceeds the available pool, otherwise
push the fragment (`fragBody`) and deduct its area. -/
def fragLoop (px py pradius pvx pvy bvx bvy : ℝ) (r : Rand) (availableArea : ℝ) :
    List Asteroid × Rand :=
  if availableArea < smallestFragmentArea then ([], r)
  else
    if availableArea < fragAreaDraw r availableArea then ([], rtail r)
    else
      let fb := fragBody px py pradius pvx pvy bvx bvy r availableArea
      let rest := fragLoop px py pradius pvx pvy bvx bvy fb.2
        (availableArea - fragAreaDraw r availableArea)
      (fb.1 :: rest.1, rest.2)
termination_by ⌈availableArea / smallestFragmentArea⌉₊
decreasing_by
  exact ceil_div_decrease smallestFragmentArea_pos (fragAreaDraw_ge r availableArea)
    (not_lt.mp (by assumption))

/-- The engine entry `fragmentAsteroid`: terminal guard, then the carving loop seeded with the
parent's full area. -/
def fragmentAsteroid (r : Rand) (bullet : Bullet) (asteroid : Asteroid) :
    List Asteroid × Rand :=
  if asteroid.area < 2 * smallestFragmentArea then ([], r)
  else
    fragLoop asteroid.x asteroid.y asteroid.radius
      (asteroid.speed * Real.cos asteroid.angle) (asteroid.speed * Real.sin asteroid.angle)
      bullet.vx bullet.vy r asteroid.area

/-! ### Scoring (`computeScoreForHit`) -/

def computeScoreForHit (asteroid : Asteroid) (bullet : Bullet) : ScoreResult :=
  let maxScore : ℝ := 100
  let minScore : ℝ := 10
  let t := (asteroid.targetRadius - 12) / (70 - 12)
  let baseScore : ℤ := round (maxScore - t * (maxScore - minScore))
  let multiplier : ℤ :=
    if bullet.distanceTraveled ≥ MIN_SNIPE_DISTANCE * bullet.maxDistance ∧
        bullet.deltaShotTime > SNIPE_TIME_THRESHOLD then
      round (2 * (bullet.distanceTraveled / (MIN_SNIPE_DISTANCE * bullet.maxDistance)))
    else 1
  let finalScore := baseScore * multiplier
  { value := finalScore
    label :=
      if multiplier > 1 then
        some ("SNIPE (" ++ toString baseScore ++ "×" ++ toString multiplier ++ ")")
      else none }

/-! ### Transient score text ("snippet") -/

structure Snippet where
  x : ℝ
  y : ℝ
  text : String
  alpha : ℝ
  lifetime : ℝ
  initialLifetime : ℝ
  vx : ℝ
  vy : ℝ

structure SnippetOptions where
  x : Option ℝ := none
  y : Option ℝ := none
  vx : Option ℝ := none
  vy : Option ℝ := none
  lifetime : Option ℝ := none

/-- Modelled from the spec: the repository's `src/lib/snippets.ts` module
(imported by `GameCanvas.svelte`) is not among the provided sources — only
its callers and the sibling crawl-text module are.  Per the spec's
`createSnippet(text, options)`: the label text is uppercased; a
caller-supplied velocity direction is normalized to unit length (guarded
against zero magnitude), otherwise the velocity defaults to straight up
(`(0, -1)` in canvas coordinates, one unit per tick); the lifetime defaults
to 60 ticks; `alpha` starts at `lifetime / initialLifetime = 1`.  Font-size
fields are visual-only and out of the spec's physics scope, so they are not
modelled.  Position defaults follow the sibling crawl module's
bottom-center convention; no claim depends on them. -/
def createSnippet (text : String) (options : SnippetOptions) : Snippet :=
  let lifetime := options.lifetime.getD 60
  let v : ℝ × ℝ :=
    match options.vx, options.vy with
    | some vx, some vy =>
        let mag := Real.sqrt (vx * vx + vy * vy)
        if mag > 0 then (vx / mag, vy / mag) else (0, -1)
    | _, _ => (0, -1)
  { x := options.x.getD (width / 2), y := options.y.getD height,
    text := text.toUpper, alpha := 1, lifetime := lifetime,
    initialLifetime := lifetime, vx := v.1, vy := v.2 }

/-! ### The collision-resolution pass (`GameCanvas.svelte`, `update()`)

The source iterates bullets by descending index (splicing a hit bullet out),
and for each bullet scans asteroids by descending index, breaking at the
first overlap; on a hit it scores, pushes a snippet, computes fragments,
spawns explosion sparks, splices the asteroid out and pushes the fragments
onto the live asteroid array. -/

structure PassState where
  asteroids : List Asteroid
  sparks : List Spark
  snippets : List Snippet
  score : ℤ
  rand : Rand

/-- The descending-index asteroid scan of one bullet: returns the hit
asteroid (the matching one with the highest index, since the scan runs from
the top and breaks at the first overlap) together with the list as left by
`splice` (order preserved, hit element removed), or `none`. -/
def scanHit (b : Bullet) : List Asteroid → Option (Asteroid × List Asteroid)
  | [] => none
  | a :: rest =>
      match scanHit b rest with
      | some p => some (p.1, a :: p.2)
      | none =>
          if (b.x - a.x) * (b.x - a.x) + (b.y - a.y) * (b.y - a.y) < a.radius * a.radius
          then some (a, rest) else none

/-- Processing of one bullet inside the pass.  On a hit: score the hit, push
the score snippet (`createSnippet(label || '' + value, bullet)` — the bullet
object serves as the options, supplying position and velocity direction),
fragment the asteroid, spawn the explosion into the spark sink, remove the
asteroid and append the fragments.  Returns the new state and whether the
bullet hit (a hit bullet is removed from the live bullet list). -/
def collideStep (b : Bullet) (s : PassState) : PassState × Bool :=
  match scanHit b s.asteroids with
  | none => (s, false)
  | some (asteroid, others) =>
      let sr := computeScoreForHit asteroid b
      let txt := match sr.label with | some l => l | none => toString sr.value
      let snip := createSnippet txt
        { x := some b.x, y := some b.y, vx := some b.vx, vy := some b.vy, lifetime := none }
      let fr := fragmentAsteroid s.rand b asteroid
      let sp := spawnExplosion b.x b.y b asteroid s.sparks fr.2
      ({ asteroids := others ++ fr.1, sparks := sp.1,
         snippets := s.snippets ++ [snip], score := s.score + sr.value,
         rand := sp.2 }, true)

/-- The full pass over the bullet list.  The source's `for` loop runs from
the highest bullet index down, so the last list element is processed first;
surviving bullets keep their original relative order. -/
def collisionPass : List Bullet → PassState → List Bullet × PassState
  | [], s => ([], s)
  | b :: rest, s =>
      let pr := collisionPass rest s
      let cs := collideStep b pr.2
      (if cs.2 then pr.1 else b :: pr.1, cs.1)

/-! ### Concrete test entities -/

/-- The all-zeroes random stream (every `Math.random()` call returns `0`). -/
def zeroRand : Rand := fun _ => ⟨0, by norm_num⟩

/-- A stationary bullet sitting at the field center; `maxDistance` is the
full field width, as when the range percentage is 100. -/
def bZero : Bullet :=
  { x := 400, y := 300, vx := 0, vy := 0, distanceTraveled := 0,
    maxDistance := 800, shotTime := 0, deltaShotTime := 0 }

/-- A stationary asteroid of radius 24 at the field center: its area
`π·24·24 = 576π` is four times `smallestFragmentArea`. -/
def A24 : Asteroid :=
  { x := 400, y := 300, angle := 0, speed := 0, radius := 24, targetRadius := 24,
    area := Real.pi * 24 * 24, vertexCount := 8, offsets := [], offsetAngle := 0 }

/-- A minimum-size asteroid (radius 12, area `π·12·12`). -/
def A12 : Asteroid :=
  { x := 0, y := 0, angle := 0, speed := 1, radius := 12, targetRadius := 12,
    area := Real.pi * 12 * 12, vertexCount := 8, offsets := [], offsetAngle := 0 }

theorem rnd_zeroRand : rnd zeroRand = 0 := rfl

theorem rtail_zeroRand : rtail zeroRand = zeroRand := rfl

/-! ### Loop characterization lemmas -/

theorem fragLoop_eq_nil (px py pradius pvx pvy bvx bvy : ℝ) (r : Rand) (a : ℝ)
    (h : a < smallestFragmentArea) :
    fragLoop px py pradius pvx pvy bvx bvy r a = ([], r) := by
  rw [fragLoop]
  simp [h]

theorem fragLoop_eq_break (px py pradius pvx pvy bvx bvy : ℝ) (r : Rand) (a : ℝ)
    (h1 : ¬ a < smallestFragmentArea) (h2 : a < fragAreaDraw r a) :
    fragLoop px py pradius pvx pvy bvx bvy r a = ([], rtail r) := by
  rw [fragLoop]
  simp [h1, h2]

theorem fragLoop_eq_cons (px py pradius pvx pvy bvx bvy : ℝ) (r : Rand) (a : ℝ)
    (h1 : ¬ a < smallestFragmentArea) (h2 : ¬ a < fragAreaDraw r a) :
    fragLoop px py pradius pvx pvy bvx bvy r a =
      ((fragBody px py pradius pvx pvy bvx bvy r a).1 ::
        (fragLoop px py pradius pvx pvy bvx bvy
          (fragBody px py pradius pvx pvy bvx bvy r a).2 (a - fragAreaDraw r a)).1,
       (fragLoop px py pradius pvx pvy bvx bvy
          (fragBody px py pradius pvx pvy bvx bvy r a).2 (a - fragAreaDraw r a)).2) := by
  rw [fragLoop]
  simp [h1, h2]

theorem fragBody_area (px py pradius pvx pvy bvx bvy : ℝ) (r : Rand) (a : ℝ) :
    (fragBody px py pradius pvx pvy bvx bvy r a).1.area = fragAreaDraw r a := by
  simp [fragBody]

theorem fragBody_targetRadius (px py pradius pvx pvy bvx bvy : ℝ) (r : Rand) (a : ℝ) :
    (fragBody px py pradius pvx pvy bvx bvy r a).1.targetRadius =
      Real.sqrt (fragAreaDraw r a / Real.pi) := by
  simp [fragBody]

/-- Invariant of the carving loop: emitted areas sum to at most the available
pool, and every emitted fragment has `area >= smallestFragmentArea` together
with the `area = π·targetRadius²` relation. -/
theorem fragLoop_sound (px py pradius pvx pvy bvx bvy : ℝ) :
    ∀ (n : ℕ) (r : Rand) (a : ℝ), ⌈a / smallestFragmentArea⌉₊ ≤ n → 0 ≤ a →
      (((fragLoop px py pradius pvx pvy bvx bvy r a).1.map Asteroid.area).sum ≤ a ∧
       ∀ f ∈ (fragLoop px py pradius pvx pvy bvx bvy r a).1,
         smallestFragmentArea ≤ f.area ∧ f.area = Real.pi * f.targetRadius ^ 2) := by
  intro n
  induction n with
  | zero =>
      intro r a hn h0
      have ha : a < smallestFragmentArea := by
        have h1 : ⌈a / smallestFragmentArea⌉₊ = 0 := Nat.le_zero.mp hn
        have h2 : a / smallestFragmentArea ≤ 0 := by
          by_contra hc
          push_neg at hc
          have := Nat.ceil_pos.mpr hc
          omega
        have h3 : a ≤ 0 := by
          by_contra hc
          push_neg at hc
          exact absurd h2 (not_le.mpr (div_pos hc smallestFragmentArea_pos))
        linarith [smallestFragmentArea_pos]
      rw [fragLoop_eq_nil _ _ _ _ _ _ _ _ _ ha]
      simp [h0]
  | succ n ih =>
      intro r a hn h0
      by_cases h1 : a < smallestFragmentArea
      · rw [fragLoop_eq_nil _ _ _ _ _ _ _ _ _ h1]
        simp [h0]
      · by_cases h2 : a < fragAreaDraw r a
        · rw [fragLoop_eq_break _ _ _ _ _ _ _ _ _ h1 h2]
          simp [h0]
        · rw [fragLoop_eq_cons _ _ _ _ _ _ _ _ _ h1 h2]
          have hfa : smallestFragmentArea ≤ fragAreaDraw r a := fragAreaDraw_ge r a
          have hfle : fragAreaDraw r a ≤ a := not_lt.mp h2
          have hs : smallestFragmentArea ≤ a := not_lt.mp h1
          have hn' : ⌈(a - fragAreaDraw r a) / smallestFragmentArea⌉₊ ≤ n := by
            have := ceil_div_decrease smallestFragmentArea_pos hfa hs
            omega
          have h0' : 0 ≤ a - fragAreaDraw r a := by linarith
          obtain ⟨ihsum, ihmem⟩ := ih ((fragBody px py pradius pvx pvy bvx bvy r a).2)
            (a - fragAreaDraw r a) hn' h0'
          constructor
          · simp only [List.map_cons, List.sum_cons, fragBody_area]
            linarith
          · intro f hf
            rcases List.mem_cons.mp hf with hh | ht
            · subst hh
              refine ⟨by rw [fragBody_area]; exact hfa, ?_⟩
              rw [fragBody_area, fragBody_targetRadius]
              have hpos : 0 ≤ fragAreaDraw r a / Real.pi :=
                div_nonneg (by linarith [smallestFragmentArea_pos]) Real.pi_pos.le
              rw [Real.sq_sqrt hpos, mul_div_cancel₀ _ Real.pi_ne_zero]
            · exact ihmem f ht

theorem fragAreaDraw_le_half (r : Rand) (a : ℝ) (h : 2 * smallestFragmentArea ≤ a) :
    fragAreaDraw r a ≤ a * 0.5 := by
  unfold fragAreaDraw
  have hmax : max smallestFragmentArea (a * 0.5) = a * 0.5 :=
    max_eq_right (by linarith)
  rw [hmax]
  have hu0 : 0 ≤ rnd r := rnd_nonneg r
  have hu1 : rnd r ≤ 1 := rnd_le_one r
  nlinarith [smallestFragmentArea_pos]

/-! ### Claims about fragmentation -/

/-- C2: for every bullet and every (well-formed, `area ≥ 0`) asteroid, the
fragments returned by `fragmentAsteroid` have total area at most the
parent's area, and every fragment's area is at least
`smallestFragmentArea = π·12²`. -/
theorem C2_fragment_area_bound (r : Rand) (bullet : Bullet) (asteroid : Asteroid)
    (h : 0 ≤ asteroid.area) :
    (((fragmentAsteroid r bullet asteroid).1.map Asteroid.area).sum ≤ asteroid.area) ∧
    ∀ f ∈ (fragmentAsteroid r bullet asteroid).1, smallestFragmentArea ≤ f.area := by
  unfold fragmentAsteroid
  by_cases hg : asteroid.area < 2 * smallestFragmentArea
  · simp [hg, h]
  · rw [if_neg hg]
    obtain ⟨h1, h2⟩ := fragLoop_sound asteroid.x asteroid.y asteroid.radius
      (asteroid.speed * Real.cos asteroid.angle) (asteroid.speed * Real.sin asteroid.angle)
      bullet.vx bullet.vy ⌈asteroid.area / smallestFragmentArea⌉₊ r asteroid.area le_rfl h
    exact ⟨h1, fun f hf => (h2 f hf).1⟩

/-- Witness for C2 at a concrete input (radius-24 parent, zero stream). -/
theorem C2_fragment_area_bound_witness :
    0 ≤ A24.area ∧
    ((((fragmentAsteroid zeroRand bZero A24).1.map Asteroid.area).sum ≤ A24.area) ∧
     ∀ f ∈ (fragmentAsteroid zeroRand bZero A24).1, smallestFragmentArea ≤ f.area) := by
  have h : 0 ≤ A24.area := by
    unfold A24
    positivity
  exact ⟨h, C2_fragment_area_bound zeroRand bZero A24 h⟩

/-- C4: an asteroid whose area is below `2·smallestFragmentArea` produces no
debris: `fragmentAsteroid` returns the empty list (normal terminal case, not
an error). -/
theorem C4_terminal_fragmentation (r : Rand) (bullet : Bullet) (asteroid : Asteroid)
    (h : asteroid.area < 2 * smallestFragmentArea) :
    (fragmentAsteroid r bullet asteroid).1 = [] := by
  unfold fragmentAsteroid
  simp [h]

/-- Witness for C4 at a concrete input: the minimum-size asteroid `A12`. -/
theorem C4_terminal_fragmentation_witness :
    A12.area < 2 * smallestFragmentArea ∧ (fragmentAsteroid zeroRand bZero A12).1 = [] := by
  have h : A12.area < 2 * smallestFragmentArea := by
    unfold A12 smallestFragmentArea smallestFragmentRadius
    simp only
    nlinarith [Real.pi_pos]
  exact ⟨h, C4_terminal_fragmentation zeroRand bZero A12 h⟩

/-- C10: an asteroid with `area ≥ 2·smallestFragmentArea` always fragments
into a non-empty list; the first drawn fragment's area is at most half the
initial available pool, so the early-exit branch cannot fire before the
first fragment is emitted. -/
theorem C10_nonempty_fragmentation (r : Rand) (bullet : Bullet) (asteroid : Asteroid)
    (h : 2 * smallestFragmentArea ≤ asteroid.area) :
    ∃ f rest, (fragmentAsteroid r bullet asteroid).1 = f :: rest ∧
      f.area ≤ asteroid.area * 0.5 := by
  unfold fragmentAsteroid
  rw [if_neg (not_lt.mpr h)]
  have hs := smallestFragmentArea_pos
  have h1 : ¬ asteroid.area < smallestFragmentArea := by push_neg; linarith
  have hhalf : fragAreaDraw r asteroid.area ≤ asteroid.area * 0.5 :=
    fragAreaDraw_le_half r asteroid.area h
  have h2 : ¬ asteroid.area < fragAreaDraw r asteroid.area := by push_neg; linarith
  rw [fragLoop_eq_cons _ _ _ _ _ _ _ _ _ h1 h2]
  refine ⟨_, _, rfl, ?_⟩
  rw [fragBody_area]
  exact hhalf

/-- Witness for C10 at a concrete input (radius-24 parent, zero stream). -/
theorem C10_nonempty_fragmentation_witness :
    2 * smallestFragmentArea ≤ A24.area ∧
    ∃ f rest, (fragmentAsteroid zeroRand bZero A24).1 = f :: rest ∧
      f.area ≤ A24.area * 0.5 := by
  have h : 2 * smallestFragmentArea ≤ A24.area := by
    unfold A24 smallestFragmentArea smallestFragmentRadius
    simp only
    nlinarith [Real.pi_pos]
  exact ⟨h, C10_nonempty_fragmentation zeroRand bZero A24 h⟩

/-- C8: every asteroid built by `spawnAsteroid` satisfies
`area = π·targetRadius²` with `radius = targetRadius` and
`targetRadius ∈ [12, 70]`; every fragment built by `fragmentAsteroid` also
satisfies `area = π·targetRadius²`. -/
theorem C8_area_invariant :
    (∀ r : Rand,
      (spawnAsteroid r).1.area = Real.pi * (spawnAsteroid r).1.targetRadius ^ 2 ∧
      (spawnAsteroid r).1.radius = (spawnAsteroid r).1.targetRadius ∧
      12 ≤ (spawnAsteroid r).1.targetRadius ∧ (spawnAsteroid r).1.targetRadius ≤ 70) ∧
    (∀ (r : Rand) (bullet : Bullet) (asteroid : Asteroid),
      ∀ f ∈ (fragmentAsteroid r bullet asteroid).1,
        f.area = Real.pi * f.targetRadius ^ 2) := by
  constructor
  · intro r
    simp only [spawnAsteroid, smallestFragmentRadius]
    refine ⟨by ring, trivial, ?_, ?_⟩
    · have := rnd_nonneg (rtail (rtail (rtail (spawnPos r).2)))
      nlinarith
    · have := rnd_lt_one (rtail (rtail (rtail (spawnPos r).2)))
      nlinarith
  · intro r bullet asteroid f hf
    unfold fragmentAsteroid at hf
    by_cases hg : asteroid.area < 2 * smallestFragmentArea
    · rw [if_pos hg] at hf
      simp at hf
    · rw [if_neg hg] at hf
      have h0 : (0 : ℝ) ≤ asteroid.area := by
        push_neg at hg
        linarith [smallestFragmentArea_pos]
      exact ((fragLoop_sound asteroid.x asteroid.y asteroid.radius
        (asteroid.speed * Real.cos asteroid.angle)
        (asteroid.speed * Real.sin asteroid.angle)
        bullet.vx bullet.vy ⌈asteroid.area / smallestFragmentArea⌉₊ r asteroid.area
        le_rfl h0).2 f hf).2

/-- Witness for C8 at a concrete input: the zero-stream spawn. -/
theorem C8_area_invariant_witness :
    (spawnAsteroid zeroRand).1.area = Real.pi * (spawnAsteroid zeroRand).1.targetRadius ^ 2 ∧
    12 ≤ (spawnAsteroid zeroRand).1.targetRadius := by
  exact ⟨(C8_area_invariant.1 zeroRand).1, (C8_area_invariant.1 zeroRand).2.2.1⟩

/-! ### Claims about scoring -/

theorem round_mono {x y : ℝ} (h : x ≤ y) : round x ≤ round y := by
  rw [round_eq, round_eq]
  exact Int.floor_mono (by linarith)

/-- Under a positive range cap, the snipe branch always yields a multiplier
of at least 2 (its rounded argument is at least 2). -/
theorem snipe_multiplier_ge_two {d M : ℝ} (hM : 0 < M) (hd : MIN_SNIPE_DISTANCE * M ≤ d) :
    (2 : ℤ) ≤ round (2 * (d / (MIN_SNIPE_DISTANCE * M))) := by
  have hpos : 0 < MIN_SNIPE_DISTANCE * M := by
    unfold MIN_SNIPE_DISTANCE
    nlinarith
  have h1 : (1 : ℝ) ≤ d / (MIN_SNIPE_DISTANCE * M) := (one_le_div hpos).mpr hd
  have h2 : (2 : ℝ) ≤ 2 * (d / (MIN_SNIPE_DISTANCE * M)) := by linarith
  calc (2 : ℤ) = round ((2 : ℝ)) := by simp
    _ ≤ round (2 * (d / (MIN_SNIPE_DISTANCE * M))) := round_mono h2

/-- C5: `computeScoreForHit` applies a snipe multiplier exactly when
`distanceTraveled ≥ 0.25·maxDistance` and `deltaShotTime > 1000` ms; the
multiplier is then `round(2·distanceTraveled/(0.25·maxDistance))` and the
label is the `SNIPE (base×multiplier)` string.  A hit with
`deltaShotTime = 1500` ms and `distanceTraveled = 0.3·maxDistance` yields a
SNIPE label; a hit with `deltaShotTime = 500` ms has multiplier 1 and no
label, regardless of distance. -/
theorem C5_snipe_gating (asteroid : Asteroid) (bullet : Bullet)
    (hM : 0 < bullet.maxDistance) :
    ((computeScoreForHit asteroid bullet).label.isSome ↔
      (bullet.distanceTraveled ≥ MIN_SNIPE_DISTANCE * bullet.maxDistance ∧
       bullet.deltaShotTime > SNIPE_TIME_THRESHOLD)) ∧
    ((bullet.distanceTraveled ≥ MIN_SNIPE_DISTANCE * bullet.maxDistance ∧
      bullet.deltaShotTime > SNIPE_TIME_THRESHOLD) →
      (computeScoreForHit asteroid bullet).value =
        round ((100 : ℝ) - (asteroid.targetRadius - 12) / (70 - 12) * (100 - 10)) *
          round (2 * (bullet.distanceTraveled / (MIN_SNIPE_DISTANCE * bullet.maxDistance))) ∧
      (computeScoreForHit asteroid bullet).label =
        some ("SNIPE (" ++
          toString (round ((100 : ℝ) - (asteroid.targetRadius - 12) / (70 - 12) * (100 - 10))) ++
          "×" ++
          toString (round (2 * (bullet.distanceTraveled / (MIN_SNIPE_DISTANCE * bullet.maxDistance)))) ++
          ")")) ∧
    (bullet.deltaShotTime = 1500 → bullet.distanceTraveled = 0.3 * bullet.maxDistance →
      (computeScoreForHit asteroid bullet).label.isSome) ∧
    (bullet.deltaShotTime = 500 →
      (computeScoreForHit asteroid bullet).value =
        round ((100 : ℝ) - (asteroid.targetRadius - 12) / (70 - 12) * (100 - 10)) ∧
      (computeScoreForHit asteroid bullet).label = none) := by
  by_cases hc : bullet.distanceTraveled ≥ MIN_SNIPE_DISTANCE * bullet.maxDistance ∧
      bullet.deltaShotTime > SNIPE_TIME_THRESHOLD
  · have hmul := snipe_multiplier_ge_two hM hc.1
    have hgt : (1 : ℤ) <
        round (2 * (bullet.distanceTraveled / (MIN_SNIPE_DISTANCE * bullet.maxDistance))) := by
      omega
    refine ⟨?_, ?_, ?_, ?_⟩
    · simp [computeScoreForHit, hc, hgt]
    · intro _
      constructor
      · simp [computeScoreForHit, hc]
      · simp [computeScoreForHit, hc, hgt]
    · intro _ _
      simp [computeScoreForHit, hc, hgt]
    · intro h500
      rw [h500] at hc
      exact absurd hc.2 (by unfold SNIPE_TIME_THRESHOLD; norm_num)
  · refine ⟨?_, fun h => absurd h hc, ?_, ?_⟩
    · simp [computeScoreForHit, hc]
    · intro h1500 hdist
      exfalso
      apply hc
      constructor
      · rw [hdist]
        unfold MIN_SNIPE_DISTANCE
        nlinarith
      · rw [h1500]
        unfold SNIPE_TIME_THRESHOLD
        norm_num
    · intro _
      simp [computeScoreForHit, hc]

/-- A bullet eligible for a snipe bonus: fired 1500 ms after the previous
shot and having covered 30% of its 800-unit range. -/
def bSnipe : Bullet :=
  { x := 0, y := 0, vx := 7, vy := 0, distanceTraveled := 240,
    maxDistance := 800, shotTime := 0, deltaShotTime := 1500 }

/-- Witness for C5 at a concrete input: the `bSnipe` hit produces a SNIPE
label. -/
theorem C5_snipe_gating_witness :
    (0 : ℝ) < bSnipe.maxDistance ∧ (computeScoreForHit A24 bSnipe).label.isSome := by
  have hM : (0 : ℝ) < bSnipe.maxDistance := by norm_num [bSnipe]
  refine ⟨hM, (C5_snipe_gating A24 bSnipe hM).2.2.1 ?_ ?_⟩
  · norm_num [bSnipe]
  · norm_num [bSnipe]

/-- C6: a non-snipe hit has multiplier 1 (value equals the rounded base
score and there is no label); the base score interpolates linearly from 100
at `targetRadius = 12` down to 10 at `targetRadius = 70`, and is antitone in
the radius (smaller asteroids score at least as much as larger ones). -/
theorem C6_base_score (asteroid : Asteroid) (bullet : Bullet)
    (hns : ¬ (bullet.distanceTraveled ≥ MIN_SNIPE_DISTANCE * bullet.maxDistance ∧
      bullet.deltaShotTime > SNIPE_TIME_THRESHOLD)) :
    (computeScoreForHit asteroid bullet).value =
      round ((100 : ℝ) - (asteroid.targetRadius - 12) / (70 - 12) * (100 - 10)) ∧
    (computeScoreForHit asteroid bullet).label = none ∧
    (asteroid.targetRadius = 12 → (computeScoreForHit asteroid bullet).value = 100) ∧
    (asteroid.targetRadius = 70 → (computeScoreForHit asteroid bullet).value = 10) ∧
    (∀ a2 : Asteroid, asteroid.targetRadius ≤ a2.targetRadius →
      (computeScoreForHit a2 bullet).value ≤ (computeScoreForHit asteroid bullet).value) := by
  have hval : ∀ a2 : Asteroid, (computeScoreForHit a2 bullet).value =
      round ((100 : ℝ) - (a2.targetRadius - 12) / (70 - 12) * (100 - 10)) := by
    intro a2
    simp [computeScoreForHit, hns]
  refine ⟨hval asteroid, ?_, ?_, ?_, ?_⟩
  · simp [computeScoreForHit, hns]
  · intro h12
    rw [hval asteroid, h12]
    norm_num
  · intro h70
    rw [hval asteroid, h70]
    norm_num
  · intro a2 hle
    rw [hval asteroid, hval a2]
    apply round_mono
    have hdiv : (asteroid.targetRadius - 12) / (70 - 12) ≤ (a2.targetRadius - 12) / (70 - 12) :=
      (div_le_div_iff_of_pos_right (by norm_num)).mpr (by linarith)
    nlinarith [hdiv]

/-- Witness for C6 at a concrete input: a first-shot hit
(`deltaShotTime = 0`) on the minimum-size asteroid scores 100. -/
theorem C6_base_score_witness :
    ¬ (bZero.distanceTraveled ≥ MIN_SNIPE_DISTANCE * bZero.maxDistance ∧
      bZero.deltaShotTime > SNIPE_TIME_THRESHOLD) ∧
    (computeScoreForHit A12 bZero).value = 100 := by
  have hns : ¬ (bZero.distanceTraveled ≥ MIN_SNIPE_DISTANCE * bZero.maxDistance ∧
      bZero.deltaShotTime > SNIPE_TIME_THRESHOLD) := by
    norm_num [bZero, SNIPE_TIME_THRESHOLD]
  exact ⟨hns, (C6_base_score A12 bZero hns).2.2.1 rfl⟩

/-! ### Claim about the snippet factory -/

/-- C9: `createSnippet` uppercases its text; a caller-supplied (non-zero)
velocity direction is normalized to unit length; with no supplied direction
the velocity defaults to straight up (`(0, -1)`, one unit per tick); the
default lifetime is 60 ticks.  (`createSnippet` is modelled from the spec —
see its doc comment.) -/
theorem C9_snippet_factory (text : String) (options : SnippetOptions) :
    (createSnippet text options).text = text.toUpper ∧
    (∀ vx vy : ℝ, options.vx = some vx → options.vy = some vy → ¬ (vx = 0 ∧ vy = 0) →
      (createSnippet text options).vx ^ 2 + (createSnippet text options).vy ^ 2 = 1) ∧
    ((options.vx = none ∨ options.vy = none) →
      (createSnippet text options).vx = 0 ∧ (createSnippet text options).vy = -1) ∧
    (options.lifetime = none →
      (createSnippet text options).lifetime = 60 ∧
      (createSnippet text options).initialLifetime = 60) := by
  refine ⟨rfl, ?_, ?_, ?_⟩
  · intro vx vy hvx hvy hnz
    have hsq : 0 < vx * vx + vy * vy := by
      rcases not_and_or.mp hnz with h | h
      · nlinarith [mul_self_pos.mpr h, mul_self_nonneg vy]
      · nlinarith [mul_self_pos.mpr h, mul_self_nonneg vx]
    have hmag : Real.sqrt (vx * vx + vy * vy) > 0 := Real.sqrt_pos.mpr hsq
    have hm2 : Real.sqrt (vx * vx + vy * vy) ^ 2 = vx * vx + vy * vy :=
      Real.sq_sqrt (le_of_lt hsq)
    simp only [createSnippet, hvx, hvy]
    rw [if_pos hmag]
    field_simp
    nlinarith [hm2]
  · intro h
    rcases h with h | h
    · simp [createSnippet, h]
    · cases hx : options.vx with
      | none => simp [createSnippet, hx, h]
      | some vx => simp [createSnippet, hx, h]
  · intro h
    simp [createSnippet, h]

/-- Options carrying a non-unit direction `(3, 4)`. -/
def snipOpts : SnippetOptions := { vx := some 3, vy := some 4 }

/-- Witness for C9 at a concrete input: the `(3, 4)` direction is normalized
to unit length and the default lifetime is 60. -/
theorem C9_snippet_factory_witness :
    (createSnippet "hit" snipOpts).text = "hit".toUpper ∧
    (createSnippet "hit" snipOpts).vx ^ 2 + (createSnippet "hit" snipOpts).vy ^ 2 = 1 ∧
    (createSnippet "hit" snipOpts).lifetime = 60 := by
  refine ⟨(C9_snippet_factory "hit" snipOpts).1, ?_, ?_⟩
  · exact (C9_snippet_factory "hit" snipOpts).2.1 3 4 rfl rfl (by norm_num)
  · exact ((C9_snippet_factory "hit" snipOpts).2.2.2 rfl).1

/-! ### Claim about asteroid wraparound (C7) -/

/-- C7 (amended): an asteroid at `x = width + outerMargin + 1` whose
horizontal step `speed·cos(angle)` exceeds `-1` (so that it is still beyond
the margin after this tick's movement) is relocated to `x = -outerMargin`
by one `updateAsteroids` call — wrapped to the far side, not clamped. -/
theorem C7_wraparound (a : Asteroid)
    (hx : a.x = width + outerMargin + 1)
    (hstep : -1 < a.speed * Real.cos a.angle) :
    (updateAsteroids [a]).map Asteroid.x = [-outerMargin] := by
  have hgt : a.x + a.speed * Real.cos a.angle > width + outerMargin := by
    rw [hx]
    linarith
  have hnlt : ¬ (a.x + a.speed * Real.cos a.angle < -outerMargin) := by
    push_neg
    unfold width outerMargin at hgt
    unfold outerMargin
    linarith
  simp [updateAsteroids, updateAsteroid, hnlt, hgt]

/-- An asteroid one unit beyond the right outer margin, moving straight
right at speed 1. -/
def aRight : Asteroid :=
  { x := width + outerMargin + 1, y := 300, angle := 0, speed := 1, radius := 20,
    targetRadius := 20, area := Real.pi * 20 * 20, vertexCount := 8, offsets := [],
    offsetAngle := 0 }

/-- An asteroid one unit beyond the right outer margin, moving straight
left at speed 1: after its move it sits exactly on the margin and is NOT
wrapped. -/
def aLeft : Asteroid :=
  { x := width + outerMargin + 1, y := 300, angle := Real.pi, speed := 1, radius := 20,
    targetRadius := 20, area := Real.pi * 20 * 20, vertexCount := 8, offsets := [],
    offsetAngle := 0 }

/-- Witness for C7 at a concrete input: the rightward-moving `aRight` wraps
to `-outerMargin`. -/
theorem C7_wraparound_witness :
    aRight.x = width + outerMargin + 1 ∧
    -1 < aRight.speed * Real.cos aRight.angle ∧
    (updateAsteroids [aRight]).map Asteroid.x = [-outerMargin] := by
  have h1 : aRight.x = width + outerMargin + 1 := rfl
  have h2 : -1 < aRight.speed * Real.cos aRight.angle := by
    simp [aRight]
  exact ⟨h1, h2, C7_wraparound aRight h1 h2⟩

/-- Counterexample to C7 as stated: the leftward-moving asteroid `aLeft`
also starts at `x = width + outerMargin + 1`, but one `updateAsteroids`
call leaves it at `x = 850 = width + outerMargin`, not at `-outerMargin` —
the claim's unconditional relocation does not hold for every asteroid at
that coordinate. -/
theorem C7_wraparound_counterexample :
    aLeft.x = width + outerMargin + 1 ∧
    (updateAsteroids [aLeft]).map Asteroid.x = [850] ∧
    (850 : ℝ) ≠ -outerMargin := by
  refine ⟨rfl, ?_, by norm_num [outerMargin]⟩
  have hcos : Real.cos aLeft.angle = -1 := by
    simp [aLeft]
  have hsin : Real.sin aLeft.angle = 0 := by
    simp [aLeft]
  simp only [updateAsteroids, List.map_cons, List.map_nil, updateAsteroid, hcos, hsin]
  norm_num [aLeft, width, height, outerMargin]

/-! ### Claim about bullet range expiry (C1) -/

/-- The spec's example bullet: constant speed 7 straight right,
`maxDistance = 70`. -/
def bullet7 : Bullet :=
  { x := 0, y := 0, vx := 7, vy := 0, distanceTraveled := 0,
    maxDistance := 70, shotTime := 0, deltaShotTime := 0 }

/-- The state of `bullet7` after `k` ticks. -/
def bullet7At (k : ℕ) : Bullet :=
  { x := 7 * (k : ℝ), y := 0, vx := 7, vy := 0, distanceTraveled := 7 * (k : ℝ),
    maxDistance := 70, shotTime := 0, deltaShotTime := 0 }

theorem sqrt_seven_step : Real.sqrt ((7 : ℝ) * 7 + 0 * 0) = 7 := by
  rw [show ((7 : ℝ) * 7 + 0 * 0) = 7 ^ 2 by norm_num, Real.sqrt_sq (by norm_num)]

theorem updateBullet_bullet7At (k : ℕ) (hk : k ≤ 10) :
    updateBullet (bullet7At k) = bullet7At (k + 1) := by
  have hkr : (k : ℝ) ≤ 10 := by exact_mod_cast hk
  simp only [updateBullet, bullet7At, sqrt_seven_step]
  have h1 : ¬ (7 * (k : ℝ) + 7 < 0) := by push_neg; positivity
  have h2 : ¬ (7 * (k : ℝ) + 7 > width) := by
    push_neg
    unfold width
    linarith
  have h3 : ¬ ((0 : ℝ) + 0 < 0) := by norm_num
  have h4 : ¬ ((0 : ℝ) + 0 > height) := by norm_num [height]
  simp only [h1, h2, h3, h4, if_false]
  simp only [Bullet.mk.injEq]
  exact ⟨by push_cast; ring, by norm_num, trivial, trivial, by push_cast; ring,
    trivial, trivial, trivial⟩

theorem updateBullets_iterate_bullet7 (k : ℕ) (hk : k ≤ 10) :
    updateBullets^[k] [bullet7] = [bullet7At k] := by
  induction k with
  | zero =>
      simp only [Function.iterate_zero, id_eq]
      simp [bullet7, bullet7At]
  | succ k ih =>
      have hk' : k ≤ 10 := Nat.le_of_succ_le hk
      rw [Function.iterate_succ_apply', ih hk']
      simp only [updateBullets, List.map_cons, List.map_nil,
        updateBullet_bullet7At k hk']
      have hkeep : (bullet7At (k + 1)).distanceTraveled ≤ (bullet7At (k + 1)).maxDistance := by
        simp only [bullet7At]
        have hk9 : (k : ℝ) ≤ 9 := by
          exact_mod_cast (by omega : k ≤ 9)
        push_cast
        linarith
      rw [List.filter_cons, List.filter_nil, if_pos (decide_eq_true hkeep)]

/-- Counterexample to C1 as stated: after exactly 10 ticks the speed-7,
`maxDistance = 70` bullet has `distanceTraveled = 70 ≥ maxDistance`, yet it
is still in the live set — the filter keeps bullets with
`distanceTraveled <= maxDistance`, so removal at equality does not happen
and the bullet is not removed after 10 ticks. -/
theorem C1_range_counterexample :
    updateBullets^[10] [bullet7] = [bullet7At 10] ∧
    (bullet7At 10).maxDistance ≤ (bullet7At 10).distanceTraveled ∧
    updateBullets^[10] [bullet7] ≠ [] := by
  have h := updateBullets_iterate_bullet7 10 (by norm_num)
  refine ⟨h, by norm_num [bullet7At], by rw [h]; simp⟩

/-- C1 (amended): `updateBullets` removes a bullet exactly when its updated
cumulative `distanceTraveled` strictly exceeds `maxDistance` (a bullet at
`distanceTraveled = maxDistance` survives), and never before;
`distanceTraveled` never decreases.  The speed-7, `maxDistance = 70` bullet
is removed after exactly 11 ticks, not 10. -/
theorem C1_range_removal :
    (∀ (bs : List Bullet) (b : Bullet), b ∈ bs →
      (updateBullet b).distanceTraveled ≤ (updateBullet b).maxDistance →
      updateBullet b ∈ updateBullets bs) ∧
    (∀ (bs : List Bullet), ∀ b ∈ updateBullets bs,
      b.distanceTraveled ≤ b.maxDistance) ∧
    (∀ b : Bullet, b.distanceTraveled ≤ (updateBullet b).distanceTraveled) ∧
    (updateBullets^[10] [bullet7] ≠ [] ∧ updateBullets^[11] [bullet7] = []) := by
  refine ⟨?_, ?_, ?_, ?_, ?_⟩
  · intro bs b hmem hle
    simp only [updateBullets, List.mem_filter, List.mem_map, decide_eq_true_eq]
    exact ⟨⟨b, hmem, rfl⟩, hle⟩
  · intro bs b hb
    simp only [updateBullets, List.mem_filter, decide_eq_true_eq] at hb
    exact hb.2
  · intro b
    simp only [updateBullet]
    have := Real.sqrt_nonneg (b.vx * b.vx + b.vy * b.vy)
    linarith
  · have h := updateBullets_iterate_bullet7 10 (by norm_num)
    rw [h]
    simp
  · rw [show (11 : ℕ) = 10 + 1 by norm_num, Function.iterate_succ_apply',
      updateBullets_iterate_bullet7 10 (by norm_num)]
    simp only [updateBullets, List.map_cons, List.map_nil,
      updateBullet_bullet7At 10 (by norm_num)]
    have hdrop : ¬ ((bullet7At 11).distanceTraveled ≤ (bullet7At 11).maxDistance) := by
      norm_num [bullet7At]
    rw [List.filter_cons, List.filter_nil,
      if_neg (by simp only [decide_eq_true_eq]; exact hdrop)]

/-- Witness for C1 at a concrete input: a freshly-updated `bullet7`
(`distanceTraveled = 7 ≤ 70`) is kept by the filter. -/
theorem C1_range_removal_witness :
    (updateBullet bullet7).distanceTraveled ≤ (updateBullet bullet7).maxDistance ∧
    updateBullet bullet7 ∈ updateBullets [bullet7] := by
  have hle : (updateBullet bullet7).distanceTraveled ≤ (updateBullet bullet7).maxDistance := by
    simp only [updateBullet, bullet7, sqrt_seven_step]
    norm_num
  exact ⟨hle, C1_range_removal.1 [bullet7] bullet7 (List.mem_singleton.mpr rfl) hle⟩

/-! ### Concrete evaluation of fragmentation under the zero stream (C3) -/

/-- The fragment produced by every iteration of the carving loop on `A24`
under the zero stream: minimum area, placed at the parent's center, pushed
by the placement unit vector fallback `(1, 0)` scaled to speed 1. -/
def F12 : Asteroid :=
  { x := 400, y := 300, angle := 0, speed := 1, radius := 12, targetRadius := 12,
    area := smallestFragmentArea, vertexCount := 8,
    offsets := List.replicate 8 0.8, offsetAngle := 0 }

theorem fragAreaDraw_zero (a : ℝ) : fragAreaDraw zeroRand a = smallestFragmentArea := by
  unfold fragAreaDraw
  rw [rnd_zeroRand]
  ring

theorem sqrt_sfa_div_pi : Real.sqrt (smallestFragmentArea / Real.pi) = 12 := by
  unfold smallestFragmentArea smallestFragmentRadius
  rw [show Real.pi * 12 * 12 / Real.pi = 144 by
    field_simp
    ring]
  rw [show (144 : ℝ) = 12 ^ 2 by norm_num, Real.sqrt_sq (by norm_num)]

theorem rpc_zero (R : ℝ) : randomPointInCircle zeroRand R = ((0, 0), zeroRand) := by
  simp [randomPointInCircle, rtail_zeroRand, rnd_zeroRand, Real.sqrt_zero]

theorem atan2_zero_one : atan2 0 1 = 0 := by
  unfold atan2
  rw [if_pos one_pos]
  norm_num [Real.arctan_zero]

theorem drawOffsets_zero (n : ℕ) :
    drawOffsets zeroRand n = (List.replicate n 0.8, zeroRand) := by
  induction n with
  | zero => rfl
  | succ n ih =>
      rw [drawOffsets, rtail_zeroRand, ih, rnd_zeroRand, List.replicate_succ]
      norm_num

theorem fragBody_zero (a : ℝ) :
    fragBody 400 300 24 0 0 0 0 zeroRand a = (F12, zeroRand) := by
  simp only [fragBody, fragAreaDraw_zero, rtail_zeroRand, rnd_zeroRand, rpc_zero,
    drawOffsets_zero, sqrt_sfa_div_pi]
  norm_num [Real.sqrt_zero, Real.sqrt_one, atan2_zero_one, F12, PI2]

/-- Under the zero stream, carving the radius-24 parent yields exactly four
minimum-size fragments: `576π → 432π → 288π → 144π → 0`. -/
theorem fragLoop_zero_A24 :
    fragLoop 400 300 24 0 0 0 0 zeroRand (Real.pi * 24 * 24) =
      ([F12, F12, F12, F12], zeroRand) := by
  have hsv : smallestFragmentArea = Real.pi * 12 * 12 := rfl
  have c1 : ¬ (Real.pi * 24 * 24 < smallestFragmentArea) := by
    rw [hsv]; exact not_lt.mpr (by nlinarith [Real.pi_pos])
  have c2 : ¬ (Real.pi * 24 * 24 - smallestFragmentArea < smallestFragmentArea) := by
    rw [hsv]; exact not_lt.mpr (by nlinarith [Real.pi_pos])
  have c3 : ¬ (Real.pi * 24 * 24 - smallestFragmentArea - smallestFragmentArea <
      smallestFragmentArea) := by
    rw [hsv]; exact not_lt.mpr (by nlinarith [Real.pi_pos])
  have c4 : ¬ (Real.pi * 24 * 24 - smallestFragmentArea - smallestFragmentArea -
      smallestFragmentArea < smallestFragmentArea) := by
    rw [hsv]; exact not_lt.mpr (by nlinarith [Real.pi_pos])
  have c5 : Real.pi * 24 * 24 - smallestFragmentArea - smallestFragmentArea -
      smallestFragmentArea - smallestFragmentArea < smallestFragmentArea := by
    rw [hsv]; nlinarith [Real.pi_pos]
  rw [fragLoop_eq_cons _ _ _ _ _ _ _ _ _ c1 (by rw [fragAreaDraw_zero]; exact c1)]
  rw [fragBody_zero, fragAreaDraw_zero]
  dsimp only
  rw [fragLoop_eq_cons _ _ _ _ _ _ _ _ _ c2 (by rw [fragAreaDraw_zero]; exact c2)]
  rw [fragBody_zero, fragAreaDraw_zero]
  dsimp only
  rw [fragLoop_eq_cons _ _ _ _ _ _ _ _ _ c3 (by rw [fragAreaDraw_zero]; exact c3)]
  rw [fragBody_zero, fragAreaDraw_zero]
  dsimp only
  rw [fragLoop_eq_cons _ _ _ _ _ _ _ _ _ c4 (by rw [fragAreaDraw_zero]; exact c4)]
  rw [fragBody_zero, fragAreaDraw_zero]
  dsimp only
  rw [fragLoop_eq_nil _ _ _ _ _ _ _ _ _ c5]

/-- Evaluating `fragmentAsteroid` on the radius-24 parent under the zero stream: four
identical minimum-size fragments at the parent's center. -/
theorem frag_A24_eval :
    fragmentAsteroid zeroRand bZero A24 = ([F12, F12, F12, F12], zeroRand) := by
  unfold fragmentAsteroid
  have hg : ¬ (A24.area < 2 * smallestFragmentArea) := by
    simp only [A24]
    rw [show smallestFragmentArea = Real.pi * 12 * 12 from rfl]
    exact not_lt.mpr (by nlinarith [Real.pi_pos])
  rw [if_neg hg]
  simp only [A24, bZero]
  norm_num
  exact fragLoop_zero_A24

/-! ### Collision-pass lemmas and the C3 claim -/

/-- On a hit, `collideStep` removes exactly the hit asteroid and appends the
fragments to the live asteroid set immediately. -/
theorem collideStep_hit (b : Bullet) (s : PassState) (p : Asteroid × List Asteroid)
    (h : scanHit b s.asteroids = some p) :
    (collideStep b s).1.asteroids = p.2 ++ (fragmentAsteroid s.rand b p.1).1 ∧
    (collideStep b s).2 = true := by
  obtain ⟨a, others⟩ := p
  unfold collideStep
  rw [h]
  exact ⟨rfl, rfl⟩

/-- A bullet that overlaps no asteroid leaves the state unchanged and is
kept. -/
theorem collideStep_miss (b : Bullet) (s : PassState)
    (h : scanHit b s.asteroids = none) :
    collideStep b s = (s, false) := by
  unfold collideStep
  rw [h]

/-- The scan removes exactly one element on a hit. -/
theorem scanHit_length (b : Bullet) :
    ∀ (l : List Asteroid) (p : Asteroid × List Asteroid),
      scanHit b l = some p → l.length = p.2.length + 1 := by
  intro l
  induction l with
  | nil => intro p h; simp [scanHit] at h
  | cons a rest ih =>
      intro p h
      rw [scanHit] at h
      cases hr : scanHit b rest with
      | some q =>
          rw [hr] at h
          obtain rfl : p = (q.1, a :: q.2) := by
            cases h
            rfl
          simp only [List.length_cons, ih q hr]
      | none =>
          rw [hr] at h
          by_cases hc : (b.x - a.x) * (b.x - a.x) + (b.y - a.y) * (b.y - a.y) <
              a.radius * a.radius
          · rw [if_pos hc] at h
            obtain rfl : p = (a, rest) := by
              cases h
              rfl
            simp
          · rw [if_neg hc] at h
            cases h

/-- The collision pass on the two-bullet scenario: initial live set `[A24]`,
both bullets at the asteroid's center, zero random stream. -/
def initState : PassState :=
  { asteroids := [A24], sparks := [], snippets := [], score := 0, rand := zeroRand }

theorem scanHit_bZero_A24 : scanHit bZero [A24] = some (A24, []) := by
  rw [scanHit, scanHit]
  rw [if_pos]
  simp only [bZero, A24]
  norm_num

theorem scanHit_bZero_F4 :
    scanHit bZero [F12, F12, F12, F12] = some (F12, [F12, F12, F12]) := by
  have hcond : (bZero.x - F12.x) * (bZero.x - F12.x) +
      (bZero.y - F12.y) * (bZero.y - F12.y) < F12.radius * F12.radius := by
    simp only [bZero, F12]
    norm_num
  rw [scanHit, scanHit, scanHit, scanHit, scanHit]
  rw [if_pos hcond]

/-- Any rand stream: fragmenting a minimum-size fragment yields no debris
(the terminal guard fires), so the chained hit removes it outright. -/
theorem fragmentAsteroid_F12 (r : Rand) (b : Bullet) :
    fragmentAsteroid r b F12 = ([], r) := by
  unfold fragmentAsteroid
  rw [if_pos]
  show F12.area < 2 * smallestFragmentArea
  simp only [F12]
  linarith [smallestFragmentArea_pos]

theorem collideStep_one : (collideStep bZero initState).1.asteroids = [F12, F12, F12, F12] ∧
    (collideStep bZero initState).2 = true := by
  have h := collideStep_hit bZero initState (A24, []) scanHit_bZero_A24
  refine ⟨?_, h.2⟩
  rw [h.1]
  show [] ++ (fragmentAsteroid zeroRand bZero A24).1 = _
  rw [frag_A24_eval]
  rfl

theorem collideStep_two :
    (collideStep bZero (collideStep bZero initState).1).1.asteroids = [F12, F12, F12] ∧
    (collideStep bZero (collideStep bZero initState).1).2 = true := by
  have h := collideStep_hit bZero (collideStep bZero initState).1 (F12, [F12, F12, F12])
    (by rw [collideStep_one.1]; exact scanHit_bZero_F4)
  refine ⟨?_, h.2⟩
  rw [h.1, fragmentAsteroid_F12]
  rfl

/-- Counterexample to C3 as stated: start a tick with one live asteroid
(`A24`) and two bullets at its center.  The later-indexed bullet is
processed first, destroys `A24`, and its four fragments are pushed onto the
live set during the pass; the remaining bullet then scans that set, hits one
of the freshly-created fragments and destroys it: both bullets are consumed
and only 3 of the 4 fragments survive the tick.  Fragments appended during
the pass ARE tested against the remaining bullets of the same pass. -/
theorem C3_retesting_counterexample :
    (collisionPass [bZero, bZero] initState).1 = [] ∧
    (fragmentAsteroid zeroRand bZero A24).1.length = 4 ∧
    ((collisionPass [bZero, bZero] initState).2.asteroids).length = 3 := by
  have hpass : collisionPass [bZero, bZero] initState =
      ([], (collideStep bZero (collideStep bZero initState).1).1) := by
    show (let pr :=
        (let pr0 := collisionPass [] initState
         let cs0 := collideStep bZero pr0.2
         (if cs0.2 then pr0.1 else bZero :: pr0.1, cs0.1))
      let cs := collideStep bZero pr.2
      (if cs.2 then pr.1 else bZero :: pr.1, cs.1)) = _
    rw [show collisionPass [] initState = ([], initState) from rfl]
    dsimp only
    rw [collideStep_one.2, collideStep_two.2]
    simp
  refine ⟨?_, ?_, ?_⟩
  · rw [hpass]
  · rw [frag_A24_eval]
    rfl
  · rw [hpass]
    dsimp only
    rw [collideStep_two.1]
    rfl

/-- C3 (amended): fragment asteroids appended because of a hit become part
of the live asteroid set immediately — exactly the hit asteroid is removed
and the fragments are appended — so they ARE visible to (and can be
destroyed by) the remaining bullets processed later in the same pass; a
bullet that misses leaves the state unchanged.  Concretely, after the first
processed bullet's hit the scanned set already holds the 4 fresh
fragments. -/
theorem C3_fragment_visibility :
    (∀ (b : Bullet) (s : PassState) (p : Asteroid × List Asteroid),
      scanHit b s.asteroids = some p →
        (collideStep b s).1.asteroids = p.2 ++ (fragmentAsteroid s.rand b p.1).1 ∧
        s.asteroids.length = p.2.length + 1) ∧
    (∀ (b : Bullet) (s : PassState), scanHit b s.asteroids = none →
      collideStep b s = (s, false)) ∧
    ((collideStep bZero initState).1.asteroids.length = 4) := by
  refine ⟨?_, collideStep_miss, ?_⟩
  · intro b s p h
    exact ⟨(collideStep_hit b s p h).1, scanHit_length b s.asteroids p h⟩
  · rw [collideStep_one.1]
    rfl

/-- Witness for C3 at a concrete input: the first processed bullet's hit on
`A24` leaves the four fragments in the scanned set. -/
theorem C3_fragment_visibility_witness :
    scanHit bZero initState.asteroids = some (A24, []) ∧
    (collideStep bZero initState).1.asteroids =
      [] ++ (fragmentAsteroid initState.rand bZero A24).1 ∧
    initState.asteroids.length = 0 + 1 := by
  have h := C3_fragment_visibility.1 bZero initState (A24, []) scanHit_bZero_A24
  exact ⟨scanHit_bZero_A24, h.1, h.2⟩

end

end Asteroids
